import Mathlib

/-!
Shallow embedding of the issue-triage HTTP service (`server.py`) and the
dashboard filter/sort primitives (`templates.py`) of the `con/skills`
repository, together with theorems settling the specification claims.

Modelling conventions:
* JSON documents are the inductive `J` below; the filesystem is a map from
  path strings to parsed documents (`FS`), so `json.dumps`/`json.loads` are
  the identity at the document level (both are stdlib JSON, and every stored
  document is produced by `json.dumps`).
* Python dicts with string keys are insertion-ordered association lists;
  setting an existing key updates it in place, a new key is appended.
* The external `gh` tool is an oracle `Oracle : Nat → GhOutcome` consulted in
  call order (the n-th spawned subprocess gets outcome `oracle n`); each
  executed command's argv is recorded in a trace.
* Paths where the Python code would raise an uncaught exception (for example
  indexing a non-dict) are modelled as `Option.none`.
-/

namespace IssueTriage

/-- JSON value, as produced by `json.loads`. Object fields are in insertion
order, matching Python dict semantics. (Floats do not occur in this
system's documents and are omitted.) -/
inductive J where
  | null : J
  | bool : Bool → J
  | int : Int → J
  | str : String → J
  | arr : List J → J
  | obj : List (String × J) → J
deriving Repr

/-- Python truthiness (`bool(x)`) for the values of `J`. -/
def pyTruthy : J → Bool
  | .null => false
  | .bool b => b
  | .int n => decide (n ≠ 0)
  | .str s => decide (s ≠ "")
  | .arr xs => !xs.isEmpty
  | .obj fields => !fields.isEmpty

/-- Python `isinstance(x, int)`: true for ints and for bools (bool is a
subclass of int). -/
def pyIsInt : J → Bool
  | .int _ => true
  | .bool _ => true
  | _ => false

/-- Numeric value of a Python int-like value (`True` counts as 1,
`False` as 0); only consulted after `pyIsInt`. -/
def pyInt : J → Int
  | .int n => n
  | .bool b => if b then 1 else 0
  | _ => 0

/-- Python `str(x)` for the int-like values reachable in this code path
(issue numbers that passed the `isinstance(number, int)` check). -/
def pyStr : J → String
  | .int n => toString n
  | .bool b => if b then "True" else "False"
  | .str s => s
  | _ => ""

/-- Python `str.strip()` (whitespace at both ends removed). -/
def pyStrip (s : String) : String :=
  String.mk
    (((s.data.dropWhile Char.isWhitespace).reverse.dropWhile
        Char.isWhitespace).reverse)

/-- Lookup in an insertion-ordered dict with string keys (`d[k]` / `k in d`). -/
def getKey : List (String × J) → String → Option J
  | [], _ => none
  | (k, v) :: rest, key => if k = key then some v else getKey rest key

/-- Python `d[k] = v`: update in place when the key exists, else append. -/
def setKey : List (String × J) → String → J → List (String × J)
  | [], key, v => [(key, v)]
  | (k, w) :: rest, key, v =>
      if k = key then (k, v) :: rest else (k, w) :: setKey rest key v

/-- Python `k in d`. -/
def hasKey (l : List (String × J)) (k : String) : Bool := (getKey l k).isSome

/-- The triage directory's filesystem: a map from path to the parsed JSON
document stored there (`none` = file does not exist). -/
abbrev FS : Type := String → Option J

/-- Split a character list on a separator (like `str.split(sep)`: the empty
input gives one empty group). -/
def splitOnChar (c : Char) : List Char → List (List Char)
  | [] => [[]]
  | x :: xs =>
      let r := splitOnChar c xs
      if x = c then [] :: r
      else
        match r with
        | [] => [[x]]
        | g :: gs => (x :: g) :: gs

/-- Join character groups with a separator (like `sep.join(groups)`). -/
def joinWith (c : Char) : List (List Char) → List Char
  | [] => []
  | [g] => g
  | g :: gs => g ++ c :: joinWith c gs

/-- Python `Path.with_suffix(".tmp")`: replace the extension of the last
path component (a leading dot alone is not an extension). -/
def withSuffixTmp (p : String) : String :=
  let comps := splitOnChar '/' p.data
  let name := comps.getLastD []
  let parts := splitOnChar '.' name
  let stem :=
    if parts.length ≤ 1 then name
    else if parts.headD ['.'] = [] ∧ parts.length = 2 then name
    else joinWith '.' parts.dropLast
  String.mk (joinWith '/' (comps.dropLast ++ [stem ++ ('.' :: ['t', 'm', 'p'])]))

/-- The `load_json` helper: parse the file if it exists, else return `{}`. -/
def load_json (fs : FS) (p : String) : J := (fs p).getD (J.obj [])

/-- Writing a file (`tmp.write_text(json.dumps(data, indent=2))`). -/
def writeFile (fs : FS) (p : String) (d : J) : FS :=
  fun q => if q = p then some d else fs q

/-- Atomic `Path.rename`: the destination gets the source's content, the
source entry disappears. -/
def renameFile (fs : FS) (src dst : String) : FS :=
  fun q => if q = dst then fs src else if q = src then none else fs q

/-- The `save_json` helper: write to the `.tmp` sibling, then rename it
into place. -/
def save_json (fs : FS) (p : String) (d : J) : FS :=
  let tmp := withSuffixTmp p
  renameFile (writeFile fs tmp d) tmp p

/-- Location of `state.json` inside the triage directory. -/
def statePath (dir : String) : String := dir ++ "/state.json"

/-- Fields of the entry dict built by `mark_triaged`: `action` and `at`
always, `comment_posted` only when true, `note` only when truthy. -/
def entryFields (action now : String) (comment_posted : Bool) (note : J) :
    List (String × J) :=
  [("action", .str action), ("at", .str now)]
    ++ (if comment_posted then [("comment_posted", .bool true)] else [])
    ++ (if pyTruthy note then [("note", note)] else [])

/-- The entry dict built by `mark_triaged`. -/
def entryJson (action now : String) (comment_posted : Bool) (note : J) : J :=
  .obj (entryFields action now comment_posted note)

/-- The `mark_triaged` state helper: load `state.json`, ensure a `triaged`
mapping, overwrite the entry for `str(number)`, save, and return the entry.
`none` models an uncaught Python exception (the loaded state or its
`triaged` field is not a dict). -/
def mark_triaged (fs : FS) (dir now : String) (number : J) (action : String)
    (comment_posted : Bool) (note : J) : Option (FS × J) :=
  match load_json fs (statePath dir) with
  | .obj fields =>
      let fields1 := if hasKey fields "triaged" then fields
                     else setKey fields "triaged" (J.obj [])
      match getKey fields1 "triaged" with
      | some (.obj tr) =>
          let entry := entryJson action now comment_posted note
          let fields2 := setKey fields1 "triaged" (.obj (setKey tr (pyStr number) entry))
          some (save_json fs (statePath dir) (.obj fields2), entry)
      | _ => none
  | _ => none

/-- Top-level fields of the state document currently on disk. -/
def topFields (fs : FS) (dir : String) : List (String × J) :=
  match load_json fs (statePath dir) with
  | .obj fields => fields
  | _ => []

/-- The `triaged` mapping of the state document currently on disk
(empty when absent). -/
def triagedOf (fs : FS) (dir : String) : List (String × J) :=
  match load_json fs (statePath dir) with
  | .obj fields =>
      match getKey fields "triaged" with
      | some (.obj tr) => tr
      | _ => []
  | _ => []

/-- Well-formedness of the on-disk state document: it parses to a dict and
its `triaged` field, when present, is a dict (otherwise `mark_triaged`
raises in Python). -/
def wfStateB (fs : FS) (dir : String) : Bool :=
  match load_json fs (statePath dir) with
  | .obj fields =>
      match getKey fields "triaged" with
      | some (.obj _) => true
      | none => true
      | some _ => false
  | _ => false

/-- Outcome of one `gh` subprocess invocation (`_run_gh`): success flag and
error text (the stripped stderr, or the timeout message). A
`subprocess.TimeoutExpired` is a failure with message "Command timed out",
the same shape as a non-zero exit. -/
structure GhOutcome where
  ok : Bool
  err : String

/-- Behaviour of the external `gh` tool: the n-th spawned subprocess of a
request gets outcome `oracle n`. -/
abbrev Oracle : Type := Nat → GhOutcome

/-- An argv list passed to `subprocess.run`. -/
abbrev Argv : Type := List String

/-- The `_run_gh` helper: append the argv to the call trace and consult the
oracle at the current call index. -/
def run_gh (o : Oracle) (calls : List Argv) (args : Argv) : List Argv × GhOutcome :=
  (calls ++ [args], o calls.length)

/-- Argv of `gh issue edit NUM --repo REPO --add-label LABEL`. -/
def editArgs (numS repo label : String) : Argv :=
  ["gh", "issue", "edit", numS, "--repo", repo, "--add-label", label]

/-- Argv of `gh issue comment NUM --repo REPO --body-file TMPPATH`. -/
def commentArgs (numS repo tmppath : String) : Argv :=
  ["gh", "issue", "comment", numS, "--repo", repo, "--body-file", tmppath]

/-- Argv of `gh issue close NUM --repo REPO --reason REASON`. -/
def closeArgs (numS repo reason : String) : Argv :=
  ["gh", "issue", "close", numS, "--repo", repo, "--reason", reason]

/-- Result of one `/api/action` request: the subprocess trace, the HTTP
status and JSON body sent back, the filesystem afterwards, and the log of
`mark_triaged` invocations `(number, action, comment_posted, note)`. -/
structure ActionOut where
  calls : List Argv
  status : Nat
  body : J
  fs : FS
  recs : List (J × String × Bool × J)

/-- Body sent by `_send_json({"ok": False, "error": msg}, 502)`. -/
def errJson (msg : String) : J := .obj [("ok", .bool false), ("error", .str msg)]

/-- Body sent by `_send_error_json(status, msg)`. -/
def errorOnly (msg : String) : J := .obj [("error", .str msg)]

/-- Body of a successful action response `{ok: true, action, entry}`. -/
def okJson (action : String) (entry : J) : J :=
  .obj [("ok", .bool true), ("action", .str action), ("entry", entry)]

/-- The label loop at the top of `_do_close`: one `gh issue edit --add-label`
call per label, stopping at the first failure with that label's error
message. -/
def label_loop (o : Oracle) (repo numS : String) :
    List String → List Argv → List Argv × Option String
  | [], calls => (calls, none)
  | label :: rest, calls =>
      let r := run_gh o calls (editArgs numS repo label)
      if r.2.ok then label_loop o repo numS rest r.1
      else (r.1, some ("Failed to add label '" ++ label ++ "': " ++ r.2.err))

/-- The `_do_close` handler: add labels, post the comment when non-blank,
close with the given reason; stop at the first failing call with a 502
`{ok: false, error}` response; on success record `closed` and respond
`{ok: true, action: "closed", entry}`. -/
def do_close (o : Oracle) (repo tmppath now : String) (fs : FS) (dir : String)
    (number : J) (comment : String) (reason : String) (labels : List String) :
    Option ActionOut :=
  let numS := pyStr number
  match label_loop o repo numS labels [] with
  | (calls, some msg) => some ⟨calls, 502, errJson msg, fs, []⟩
  | (calls, none) =>
      let step2 : List Argv × Option String :=
        if pyStrip comment ≠ "" then
          let r := run_gh o calls (commentArgs numS repo tmppath)
          (r.1, if r.2.ok then none else some ("Failed to post comment: " ++ r.2.err))
        else (calls, none)
      match step2 with
      | (calls2, some msg) => some ⟨calls2, 502, errJson msg, fs, []⟩
      | (calls2, none) =>
          let r := run_gh o calls2 (closeArgs numS repo reason)
          if r.2.ok then
            match mark_triaged fs dir now number "closed" (pyStrip comment ≠ "") (.str "") with
            | some (fs', entry) =>
                some ⟨r.1, 200, okJson "closed" entry, fs',
                      [(number, "closed", decide (pyStrip comment ≠ ""), .str "")]⟩
            | none => none
          else some ⟨r.1, 502, errJson ("Failed to close issue: " ++ r.2.err), fs, []⟩

/-- The `_do_comment` handler: reject a blank comment with 400, else post it
via a body file; on tool failure respond 502; on success record
`commented` with `comment_posted=True`. -/
def do_comment (o : Oracle) (repo tmppath now : String) (fs : FS) (dir : String)
    (number : J) (comment : String) : Option ActionOut :=
  if pyStrip comment = "" then
    some ⟨[], 400, errorOnly "Comment cannot be empty", fs, []⟩
  else
    let r := run_gh o [] (commentArgs (pyStr number) repo tmppath)
    if r.2.ok then
      match mark_triaged fs dir now number "commented" true (.str "") with
      | some (fs', entry) =>
          some ⟨r.1, 200, okJson "commented" entry, fs',
                [(number, "commented", true, .str "")]⟩
      | none => none
    else some ⟨r.1, 502, errJson ("Failed to post comment: " ++ r.2.err), fs, []⟩

/-- The `_do_skip` handler: record `skipped` with the request's comment as
the note; no external call. -/
def do_skip (now : String) (fs : FS) (dir : String) (number : J) (note : J) :
    Option ActionOut :=
  match mark_triaged fs dir now number "skipped" false note with
  | some (fs', entry) =>
      some ⟨[], 200, okJson "skipped" entry, fs', [(number, "skipped", false, note)]⟩
  | none => none

/-- Membership test `action in ("close", "close_wontfix", "comment", "skip")`
(a non-string request value equals none of the four strings). -/
def isAllowedAction : J → Bool
  | .str "close" => true
  | .str "close_wontfix" => true
  | .str "comment" => true
  | .str "skip" => true
  | _ => false

/-- Helper for `asLabels`: the elements of a JSON array when all are
strings. -/
def strList : List J → Option (List String)
  | [] => some []
  | .str s :: rest => (strList rest).map (s :: ·)
  | _ :: _ => none

/-- The value `body.get("labels", [])` as iterated by `for label in labels
or []`: a list of strings yields its elements, a falsy value yields the
empty list, anything else raises in Python (`none`). -/
def asLabels : J → Option (List String)
  | .arr xs => strList xs
  | .null => some []
  | .bool false => some []
  | .int 0 => some []
  | .str "" => some []
  | .obj [] => some []
  | _ => none

/-- The `_handle_action` POST handler: validate `number` (Python
`isinstance(number, int)` accepts bools) and `action`, then dispatch. For
`close_wontfix` a `wontfix` label is prepended to the requested labels and
the reason is "not planned". `none` models an uncaught exception on an
ill-typed `comment`/`labels` value. -/
def handle_action (o : Oracle) (repo tmppath now : String) (fs : FS)
    (dir : String) (body : J) : Option ActionOut :=
  match body with
  | .obj fields =>
      let number := (getKey fields "number").getD .null
      let action := (getKey fields "action").getD .null
      let comment := (getKey fields "comment").getD (.str "")
      if ¬ (pyIsInt number = true ∧ pyInt number > 0) then
        some ⟨[], 400, errorOnly "Invalid issue number", fs, []⟩
      else if ¬ isAllowedAction action then
        some ⟨[], 400,
          errorOnly "Action must be 'close', 'close_wontfix', 'comment', or 'skip'",
          fs, []⟩
      else
        let labels := (getKey fields "labels").getD (.arr [])
        match action with
        | .str "close" =>
            match asLabels labels, comment with
            | some ls, .str c => do_close o repo tmppath now fs dir number c "completed" ls
            | _, _ => none
        | .str "close_wontfix" =>
            match asLabels labels, comment with
            | some ls, .str c =>
                do_close o repo tmppath now fs dir number c "not planned" ("wontfix" :: ls)
            | _, _ => none
        | .str "comment" =>
            match comment with
            | .str c => do_comment o repo tmppath now fs dir number c
            | _ => none
        | .str "skip" => do_skip now fs dir number comment
        | _ => none
  | _ => none

/-! Dashboard query primitives (`render_dashboard` in `templates.py`). -/

/-- Python `==` on the scalar values used as dict keys and filter values
(numbers compare across bool/int, strings by content; containers are not
hashable in Python and cannot be dict keys). -/
def pyEq (a b : J) : Bool :=
  match a, b with
  | .int m, .int n => m = n
  | .int m, .bool c => m = (if c then 1 else 0)
  | .bool c, .int n => (if c then (1 : Int) else 0) = n
  | .bool c, .bool d => c = d
  | .str s, .str t => s = t
  | .null, .null => true
  | _, _ => false

/-- Lookup in a dict keyed by arbitrary scalar values. -/
def lookupBy (eq : J → J → Bool) : List (J × J) → J → Option J
  | [], _ => none
  | (k, v) :: rest, key => if eq k key then some v else lookupBy eq rest key

/-- Insertion-ordered update for a dict keyed by arbitrary scalar values. -/
def setKeyBy (eq : J → J → Bool) : List (J × J) → J → J → List (J × J)
  | [], key, v => [(key, v)]
  | (k, w) :: rest, key, v =>
      if eq k key then (k, v) :: rest else (k, w) :: setKeyBy eq rest key v

/-- The loop `for f in findings.get("issues", []): findings_by_num[f["number"]] = f`
(`none` when an element is not a dict or lacks a `number`). -/
def buildFBN : List J → List (J × J) → Option (List (J × J))
  | [], acc => some acc
  | .obj ffields :: rest, acc =>
      match getKey ffields "number" with
      | some num => buildFBN rest (setKeyBy pyEq acc num (.obj ffields))
      | none => none
  | _ :: _, _ => none

/-- The `findings_by_num` lookup map of `render_dashboard`. -/
def findings_by_num (findings : J) : Option (List (J × J)) :=
  match findings with
  | .obj fields =>
      match (getKey fields "issues").getD (.arr []) with
      | .arr issues => buildFBN issues []
      | _ => none
  | _ => none

/-- Python `x == filterString` where `x` came from `.get(...)`: true only
when `x` is that exact string (`None == s` and `i == s` are false). -/
def eqStrOpt (x : Option J) (s : String) : Bool :=
  match x with
  | some (.str t) => t = s
  | _ => false

/-- The issue's `number` field (`i["number"]`; `none` = KeyError). -/
def issueNumber : J → Option J
  | .obj fields => getKey fields "number"
  | _ => none

/-- One evaluation of the verdict filter predicate
`findings_by_num.get(i["number"], {}).get("verdict") == verdict_filter`. -/
def verdictMatches (fbn : List (J × J)) (vf : String) (i : J) : Option Bool :=
  match issueNumber i with
  | some n =>
      match (lookupBy pyEq fbn n).getD (.obj []) with
      | .obj ffields => some (eqStrOpt (getKey ffields "verdict") vf)
      | _ => none
  | none => none

/-- One evaluation of the confidence filter predicate
`findings_by_num.get(i["number"], {}).get("confidence") == confidence_filter`. -/
def confidenceMatches (fbn : List (J × J)) (cf : String) (i : J) : Option Bool :=
  match issueNumber i with
  | some n =>
      match (lookupBy pyEq fbn n).getD (.obj []) with
      | .obj ffields => some (eqStrOpt (getKey ffields "confidence") cf)
      | _ => none
  | none => none

/-- List comprehension filtering by an Option-valued predicate (`none`
aborts, modelling a raised exception). -/
def filterOpt (p : J → Option Bool) : List J → Option (List J)
  | [] => some []
  | i :: rest =>
      match p i with
      | some true => (filterOpt p rest).map (i :: ·)
      | some false => filterOpt p rest
      | none => none

/-- The verdict filter step of `render_dashboard` (an empty filter string is
falsy and skips the filter). -/
def filterVerdict (fbn : List (J × J)) (vf : String) (issues : List J) :
    Option (List J) :=
  if vf = "" then some issues else filterOpt (verdictMatches fbn vf) issues

/-- The confidence filter step of `render_dashboard`. -/
def filterConfidence (fbn : List (J × J)) (cf : String) (issues : List J) :
    Option (List J) :=
  if cf = "" then some issues else filterOpt (confidenceMatches fbn cf) issues

/-- The confidence rank dict `order = {"HIGH": 0, "MEDIUM": 1, "LOW": 2,
"PENDING": 3}` read with `order.get(x, 3)`. -/
def rankOf : J → Nat
  | .str "HIGH" => 0
  | .str "MEDIUM" => 1
  | .str "LOW" => 2
  | _ => 3

/-- Sort key of the confidence sort:
`order.get(findings_by_num.get(i["number"], {}).get("confidence", "PENDING"), 3)`. -/
def confRank (fbn : List (J × J)) (i : J) : Option Nat :=
  match issueNumber i with
  | some n =>
      match (lookupBy pyEq fbn n).getD (.obj []) with
      | .obj ffields => some (rankOf ((getKey ffields "confidence").getD (.str "PENDING")))
      | _ => none
  | none => none

/-- Sort key of the age sort, `i.get("created_at", "")`, as the string's
code points (Python compares strings code point by code point, which is
the lexicographic order on `List Char`); `none` models a non-string value,
which Python cannot compare against strings. -/
def ageKey : J → Option (List Char)
  | .obj fields =>
      match getKey fields "created_at" with
      | some (.str s) => some s.data
      | none => some []
      | some _ => none
  | _ => none

/-- Sort key of the default sort, `i["number"]` as an int-like value. -/
def numKey : J → Option Int
  | .obj fields =>
      match getKey fields "number" with
      | some x => if pyIsInt x then some (pyInt x) else none
      | none => none
  | _ => none

/-- Python's `list.sort(key=k)`: decorate each element with its key (keys
are computed once, any key error aborts), then run a stable sort on the
keys. -/
def decorate {κ : Type} (key : J → Option κ) : List J → Option (List (κ × J))
  | [] => some []
  | i :: rest =>
      match key i, decorate key rest with
      | some k, some ps => some ((k, i) :: ps)
      | _, _ => none

/-- Stable sort of issues by an Option-valued key (Python's `list.sort`
with a key function is a stable sort under the total preorder `key i ≤
key j`; every stable sort produces the same output, here realised by
insertion sort). -/
def sortByKey {κ : Type} [LinearOrder κ] (key : J → Option κ)
    (issues : List J) : Option (List J) :=
  (decorate key issues).map fun ps =>
    (ps.insertionSort (fun a b => a.1 ≤ b.1)).map Prod.snd

/-- The `sort_by == "age"` branch of `render_dashboard`. -/
def sortByAge : List J → Option (List J) :=
  sortByKey ageKey

/-- The `sort_by == "confidence"` branch of `render_dashboard`. -/
def sortByConf (fbn : List (J × J)) : List J → Option (List J) :=
  sortByKey (confRank fbn)

/-- The default branch of the sort (issue number ascending). -/
def sortByNumber : List J → Option (List J) :=
  sortByKey numKey

/-- The sort dispatch of `render_dashboard` on `filters.get("sort",
"number")`: "age" and "confidence" have their own key, anything else sorts
by issue number. -/
def dashboardSort (fbn : List (J × J)) (sortBy : String) (issues : List J) :
    Option (List J) :=
  if sortBy = "age" then sortByAge issues
  else if sortBy = "confidence" then sortByConf fbn issues
  else sortByNumber issues

/-! Plan/execute view of `_do_close`, used to reason about the call
sequence uniformly: a step is an argv plus the error-message formatter of
the `if not ok` branch that follows it in the source. -/

/-- One planned external call: the argv and the error message wrapper. -/
def PlanStep : Type := Argv × (String → String)

/-- Execute planned calls in order, stopping at the first failure. -/
def gh_exec (o : Oracle) : List Argv → List PlanStep → List Argv × Option String
  | calls, [] => (calls, none)
  | calls, (args, emsg) :: rest =>
      let r := run_gh o calls args
      if r.2.ok then gh_exec o r.1 rest else (r.1, some (emsg r.2.err))

/-- The label-add step of the `_do_close` loop. -/
def labelStep (numS repo label : String) : PlanStep :=
  (editArgs numS repo label, fun e => "Failed to add label '" ++ label ++ "': " ++ e)

/-- The comment-post step of `_do_close`. -/
def commentStep (numS repo tmppath : String) : PlanStep :=
  (commentArgs numS repo tmppath, fun e => "Failed to post comment: " ++ e)

/-- The close step of `_do_close`. -/
def closeStep (numS repo reason : String) : PlanStep :=
  (closeArgs numS repo reason, fun e => "Failed to close issue: " ++ e)

/-- The full call plan of `_do_close`: labels, then the comment when
non-blank, then the close. -/
def closePlan (numS repo tmppath comment reason : String) (labels : List String) :
    List PlanStep :=
  labels.map (labelStep numS repo)
    ++ (if pyStrip comment ≠ "" then [commentStep numS repo tmppath] else [])
    ++ [closeStep numS repo reason]

/-- The label list `_handle_action` hands to `_do_close` for each action. -/
def actionLabels (act : String) (ls : List String) : List String :=
  if act = "close_wontfix" then "wontfix" :: ls else ls

/-- The close reason `_handle_action` hands to `_do_close` for each action. -/
def actionReason (act : String) : String :=
  if act = "close_wontfix" then "not planned" else "completed"

/-! Helper lemmas about the dict and store primitives. -/

theorem getKey_setKey_self (l : List (String × J)) (k : String) (v : J) :
    getKey (setKey l k v) k = some v := by
  induction l with
  | nil => simp [setKey, getKey]
  | cons hd tl ih =>
      by_cases h : hd.1 = k
      · simp [setKey, getKey, h]
      · simp [setKey, getKey, h, ih]

theorem getKey_setKey_ne (l : List (String × J)) (k : String) (v : J)
    (k' : String) (h : k' ≠ k) : getKey (setKey l k v) k' = getKey l k' := by
  induction l with
  | nil =>
      simp only [setKey, getKey, if_neg (Ne.symm h)]
  | cons hd tl ih =>
      obtain ⟨k1, v1⟩ := hd
      by_cases hk : k1 = k
      · subst hk
        simp [setKey, getKey, Ne.symm h]
      · simp [setKey, getKey, hk, ih]

theorem keys_setKey (l : List (String × J)) (k : String) (v : J) :
    (setKey l k v).map Prod.fst =
      if hasKey l k then l.map Prod.fst else l.map Prod.fst ++ [k] := by
  induction l with
  | nil => simp [setKey, hasKey, getKey]
  | cons hd tl ih =>
      obtain ⟨k1, v1⟩ := hd
      by_cases h : k1 = k
      · simp [setKey, hasKey, getKey, h]
      · have h3 : hasKey ((k1, v1) :: tl) k = hasKey tl k := by
          simp [hasKey, getKey, h]
        rw [h3]
        simp only [setKey, if_neg h, List.map_cons, ih]
        by_cases h2 : hasKey tl k <;> simp [h2]

theorem nodup_keys_setKey (l : List (String × J)) (k : String) (v : J)
    (h : (l.map Prod.fst).Nodup) : ((setKey l k v).map Prod.fst).Nodup := by
  rw [keys_setKey]
  by_cases hk : hasKey l k
  · simpa [hk]
  · simp only [hk, if_false]
    have hnot : k ∉ l.map Prod.fst := by
      intro hmem
      apply hk
      clear h hk
      induction l with
      | nil => simp at hmem
      | cons hd tl ih =>
          simp only [List.map_cons, List.mem_cons] at hmem
          rcases hmem with hmem | hmem
          · simp [hasKey, getKey, hmem]
          · by_cases hh : hd.1 = k
            · simp [hasKey, getKey, hh]
            · simpa [hasKey, getKey, hh] using ih hmem
    simp [List.nodup_append, h, hnot]

theorem load_json_save_json (fs : FS) (p : String) (d : J) :
    load_json (save_json fs p d) p = d := by
  simp [load_json, save_json, renameFile, writeFile]

theorem save_json_at (fs : FS) (p : String) (d : J) :
    save_json fs p d p = some d := by
  simp [save_json, renameFile, writeFile]

theorem save_json_tmp_gone (fs : FS) (p : String) (d : J)
    (h : withSuffixTmp p ≠ p) : save_json fs p d (withSuffixTmp p) = none := by
  simp [save_json, renameFile, writeFile, h]

theorem save_json_other (fs : FS) (p : String) (d : J) (q : String)
    (hq1 : q ≠ p) (hq2 : q ≠ withSuffixTmp p) : save_json fs p d q = fs q := by
  simp [save_json, renameFile, writeFile, hq1, hq2]

theorem load_json_missing (fs : FS) (p : String) (h : fs p = none) :
    load_json fs p = .obj [] := by
  simp [load_json, h]

/-- The top-level fields `mark_triaged` writes back to `state.json`. -/
def markedFields (fs : FS) (dir now : String) (number : J) (action : String)
    (comment_posted : Bool) (note : J) : List (String × J) :=
  setKey (if hasKey (topFields fs dir) "triaged" then topFields fs dir
          else setKey (topFields fs dir) "triaged" (J.obj []))
    "triaged"
    (.obj (setKey (triagedOf fs dir) (pyStr number)
             (entryJson action now comment_posted note)))

theorem mark_triaged_eq (fs : FS) (dir now : String) (number : J)
    (action : String) (cp : Bool) (note : J) (wf : wfStateB fs dir = true) :
    mark_triaged fs dir now number action cp note =
      some (save_json fs (statePath dir)
              (.obj (markedFields fs dir now number action cp note)),
            entryJson action now cp note) := by
  unfold wfStateB at wf
  unfold mark_triaged markedFields topFields triagedOf
  cases hload : load_json fs (statePath dir) with
  | obj fields =>
      cases htr : getKey fields "triaged" with
      | none =>
          have hhas : hasKey fields "triaged" = false := by
            simp [hasKey, htr]
          simp [hhas, htr, getKey_setKey_self]
      | some trv =>
          cases trv with
          | obj tr =>
              have hhas : hasKey fields "triaged" = true := by
                simp [hasKey, htr]
              simp [hhas, htr]
          | null => rw [hload] at wf; simp [htr] at wf
          | bool b => rw [hload] at wf; simp [htr] at wf
          | int n => rw [hload] at wf; simp [htr] at wf
          | str s => rw [hload] at wf; simp [htr] at wf
          | arr xs => rw [hload] at wf; simp [htr] at wf
  | null => rw [hload] at wf; simp at wf
  | bool b => rw [hload] at wf; simp at wf
  | int n => rw [hload] at wf; simp at wf
  | str s => rw [hload] at wf; simp at wf
  | arr xs => rw [hload] at wf; simp at wf

theorem getKey_markedFields_triaged (fs : FS) (dir now : String) (number : J)
    (action : String) (cp : Bool) (note : J) :
    getKey (markedFields fs dir now number action cp note) "triaged" =
      some (.obj (setKey (triagedOf fs dir) (pyStr number)
              (entryJson action now cp note))) := by
  unfold markedFields
  exact getKey_setKey_self _ _ _

theorem getKey_markedFields_ne (fs : FS) (dir now : String) (number : J)
    (action : String) (cp : Bool) (note : J) (k : String) (hk : k ≠ "triaged") :
    getKey (markedFields fs dir now number action cp note) k =
      getKey (topFields fs dir) k := by
  unfold markedFields
  rw [getKey_setKey_ne _ _ _ _ hk]
  by_cases h : hasKey (topFields fs dir) "triaged"
  · simp [h]
  · simp [h, getKey_setKey_ne _ _ _ _ hk]

theorem entry_getKey_action (action now : String) (cp : Bool) (note : J) :
    getKey (entryFields action now cp note) "action" = some (.str action) := by
  cases cp <;> cases h : pyTruthy note <;> simp [entryFields, getKey, h]

theorem entry_getKey_comment_posted (action now : String) (cp : Bool) (note : J) :
    getKey (entryFields action now cp note) "comment_posted" =
      if cp then some (.bool true) else none := by
  cases cp <;> cases h : pyTruthy note <;> simp [entryFields, getKey, h]

theorem entry_getKey_note (action now : String) (cp : Bool) (s : String) :
    getKey (entryFields action now cp (.str s)) "note" =
      if s ≠ "" then some (.str s) else none := by
  by_cases hs : s = ""
  · subst hs
    cases cp <;> simp [entryFields, getKey, pyTruthy]
  · cases cp <;> simp [entryFields, getKey, pyTruthy, hs]

/-! Helper lemmas about the external-call machinery. -/

theorem strList_map_str (ls : List String) : strList (ls.map J.str) = some ls := by
  induction ls with
  | nil => simp [strList]
  | cons hd tl ih => simp [strList, ih]

theorem asLabels_map_str (ls : List String) :
    asLabels (.arr (ls.map J.str)) = some ls := by
  simp [asLabels, strList_map_str]

theorem label_loop_eq_gh_exec (o : Oracle) (repo numS : String)
    (labels : List String) (calls : List Argv) :
    label_loop o repo numS labels calls =
      gh_exec o calls (labels.map (labelStep numS repo)) := by
  induction labels generalizing calls with
  | nil => simp [label_loop, gh_exec]
  | cons hd tl ih =>
      simp only [label_loop, gh_exec, List.map_cons, labelStep, run_gh]
      by_cases h : (o calls.length).ok
      · simp [h, ih]
      · simp [h]

theorem gh_exec_append (o : Oracle) (p1 p2 : List PlanStep) (calls : List Argv) :
    gh_exec o calls (p1 ++ p2) =
      match gh_exec o calls p1 with
      | (cs, some m) => (cs, some m)
      | (cs, none) => gh_exec o cs p2 := by
  induction p1 generalizing calls with
  | nil => simp [gh_exec]
  | cons hd tl ih =>
      obtain ⟨args, emsg⟩ := hd
      simp only [List.cons_append, gh_exec, run_gh]
      by_cases h : (o calls.length).ok
      · simp [h, ih]
      · simp [h]

theorem gh_exec_all_ok (o : Oracle) (plan : List PlanStep) (calls : List Argv)
    (h : ∀ i, calls.length ≤ i → i < calls.length + plan.length → (o i).ok = true) :
    gh_exec o calls plan = (calls ++ plan.map Prod.fst, none) := by
  induction plan generalizing calls with
  | nil => simp [gh_exec]
  | cons hd tl ih =>
      obtain ⟨args, emsg⟩ := hd
      have hok : (o calls.length).ok = true := by
        apply h <;> simp
      simp only [gh_exec, run_gh, hok, if_true]
      rw [ih]
      · simp
      · intro i h1 h2
        apply h
        · simp at h1
          omega
        · simp at h2 ⊢
          omega

theorem gh_exec_first_fail (o : Oracle) (plan : List PlanStep)
    (calls : List Argv) (j : Nat) (hlo : calls.length ≤ j)
    (hhi : j < calls.length + plan.length)
    (hok : ∀ i, calls.length ≤ i → i < j → (o i).ok = true)
    (hfail : (o j).ok = false) :
    ∃ step, plan[j - calls.length]? = some step ∧
      gh_exec o calls plan =
        (calls ++ (plan.take (j - calls.length + 1)).map Prod.fst,
         some (step.2 (o j).err)) := by
  induction plan generalizing calls with
  | nil => simp at hhi; omega
  | cons hd tl ih =>
      obtain ⟨args, emsg⟩ := hd
      by_cases hj : calls.length = j
      · refine ⟨(args, emsg), ?_, ?_⟩
        · simp [← hj]
        · subst hj
          simp [gh_exec, run_gh, hfail]
      · have hlt : calls.length < j := lt_of_le_of_ne hlo hj
        have hok0 : (o calls.length).ok = true := hok _ le_rfl hlt
        have := ih (calls ++ [args]) (by simp; omega) (by simp at hhi ⊢; omega)
          (by intro i h1 h2; exact hok i (by simp at h1; omega) h2)
        obtain ⟨step, hstep, hexec⟩ := this
        have hidx : j - calls.length = (j - (calls ++ [args]).length) + 1 := by
          simp; omega
        refine ⟨step, ?_, ?_⟩
        · rw [hidx]
          simpa using hstep
        · simp only [gh_exec, run_gh, hok0, if_true]
          rw [hexec, hidx]
          simp [List.take_succ_cons]

theorem do_close_eq_plan (o : Oracle) (repo tmppath now : String) (fs : FS)
    (dir : String) (number : J) (comment reason : String) (labels : List String) :
    do_close o repo tmppath now fs dir number comment reason labels =
      match gh_exec o [] (closePlan (pyStr number) repo tmppath comment reason labels) with
      | (calls, some msg) => some ⟨calls, 502, errJson msg, fs, []⟩
      | (calls, none) =>
          match mark_triaged fs dir now number "closed" (pyStrip comment ≠ "") (.str "") with
          | some (fs', entry) =>
              some ⟨calls, 200, okJson "closed" entry, fs',
                    [(number, "closed", decide (pyStrip comment ≠ ""), .str "")]⟩
          | none => none := by
  unfold do_close closePlan
  dsimp only
  rw [label_loop_eq_gh_exec, List.append_assoc]
  rw [gh_exec_append o (List.map (labelStep (pyStr number) repo) labels)]
  cases hlab : gh_exec o [] (List.map (labelStep (pyStr number) repo) labels) with
  | mk calls res =>
      cases res with
      | some msg => rfl
      | none =>
          dsimp only
          by_cases hc : pyStrip comment ≠ ""
          · by_cases hok : (o calls.length).ok
            · cases hclose : (o (calls.length + 1)).ok
              · simp [hc, hok, hclose, gh_exec, run_gh, commentStep, closeStep]
              · simp [hc, hok, hclose, gh_exec, run_gh, commentStep, closeStep]
            · simp [hc, hok, gh_exec, run_gh, commentStep, closeStep]
          · by_cases hclose : (o calls.length).ok
            · simp [hc, hclose, gh_exec, run_gh, commentStep, closeStep]
            · simp [hc, hclose, gh_exec, run_gh, commentStep, closeStep]

/-! Dispatch lemmas: `_handle_action` reduced to the per-action helper on a
well-typed request body. -/

theorem handle_action_close_eq (o : Oracle) (repo tmppath now : String)
    (fs : FS) (dir : String) (fields : List (String × J)) (act : String)
    (n : Int) (c : String) (ls : List String)
    (hnum : getKey fields "number" = some (.int n)) (hn : 0 < n)
    (hact : getKey fields "action" = some (.str act))
    (hc : getKey fields "comment" = some (.str c))
    (hl : getKey fields "labels" = some (.arr (ls.map J.str)))
    (ha : act = "close" ∨ act = "close_wontfix") :
    handle_action o repo tmppath now fs dir (.obj fields) =
      do_close o repo tmppath now fs dir (.int n) c (actionReason act)
        (actionLabels act ls) := by
  unfold handle_action
  dsimp only
  rw [hnum, hact, hc, hl]
  dsimp only [Option.getD]
  have hval : ¬ ¬ (pyIsInt (J.int n) = true ∧ pyInt (J.int n) > 0) := by
    simp [pyIsInt, pyInt]
    omega
  rw [if_neg hval]
  rcases ha with ha | ha <;> subst ha <;>
    simp [isAllowedAction, asLabels_map_str, actionLabels, actionReason]

theorem handle_action_comment_eq (o : Oracle) (repo tmppath now : String)
    (fs : FS) (dir : String) (fields : List (String × J)) (n : Int) (c : String)
    (hnum : getKey fields "number" = some (.int n)) (hn : 0 < n)
    (hact : getKey fields "action" = some (.str "comment"))
    (hc : getKey fields "comment" = some (.str c)) :
    handle_action o repo tmppath now fs dir (.obj fields) =
      do_comment o repo tmppath now fs dir (.int n) c := by
  unfold handle_action
  dsimp only
  rw [hnum, hact, hc]
  dsimp only [Option.getD]
  have hval : ¬ ¬ (pyIsInt (J.int n) = true ∧ pyInt (J.int n) > 0) := by
    simp [pyIsInt, pyInt]
    omega
  rw [if_neg hval]
  simp [isAllowedAction]

theorem handle_action_skip_eq (o : Oracle) (repo tmppath now : String)
    (fs : FS) (dir : String) (fields : List (String × J)) (n : Int) (cJ : J)
    (hnum : getKey fields "number" = some (.int n)) (hn : 0 < n)
    (hact : getKey fields "action" = some (.str "skip"))
    (hc : getKey fields "comment" = some cJ) :
    handle_action o repo tmppath now fs dir (.obj fields) =
      do_skip now fs dir (.int n) cJ := by
  unfold handle_action
  dsimp only
  rw [hnum, hact, hc]
  dsimp only [Option.getD]
  have hval : ¬ ¬ (pyIsInt (J.int n) = true ∧ pyInt (J.int n) > 0) := by
    simp [pyIsInt, pyInt]
    omega
  rw [if_neg hval]
  simp [isAllowedAction]

theorem topFields_after_mark (fs : FS) (dir now : String) (number : J)
    (action : String) (cp : Bool) (note : J) :
    topFields (save_json fs (statePath dir)
        (.obj (markedFields fs dir now number action cp note))) dir =
      markedFields fs dir now number action cp note := by
  unfold topFields
  rw [load_json_save_json]

theorem triagedOf_after_mark (fs : FS) (dir now : String) (number : J)
    (action : String) (cp : Bool) (note : J) :
    triagedOf (save_json fs (statePath dir)
        (.obj (markedFields fs dir now number action cp note))) dir =
      setKey (triagedOf fs dir) (pyStr number) (entryJson action now cp note) := by
  unfold triagedOf
  rw [load_json_save_json]
  dsimp only
  rw [getKey_markedFields_triaged]
  rfl

/-! Claim theorems. -/

/-- C4: `save_json(path, D)` followed by `load_json(path)` returns a document
equal to `D` and leaves no `.tmp` sibling behind, and `load_json` of a
missing file returns an empty mapping. -/
theorem save_load_roundtrip (fs : FS) (p : String) (d : J) :
    load_json (save_json fs p d) p = d ∧
    (withSuffixTmp p ≠ p → save_json fs p d (withSuffixTmp p) = none) ∧
    (fs p = none → load_json fs p = .obj []) :=
  ⟨load_json_save_json fs p d,
   fun h => save_json_tmp_gone fs p d h,
   fun h => load_json_missing fs p h⟩

/-- Witness for C4 at a concrete store, path and document. -/
theorem save_load_roundtrip_witness :
    load_json (save_json (fun _ => none) "t/state.json" (J.obj [("x", J.int 1)]))
        "t/state.json" = J.obj [("x", J.int 1)] ∧
    save_json (fun _ => none) "t/state.json" (J.obj [("x", J.int 1)])
        (withSuffixTmp "t/state.json") = none ∧
    load_json (fun _ => none) "t/state.json" = J.obj [] :=
  ⟨(save_load_roundtrip (fun _ => none) "t/state.json" (J.obj [("x", J.int 1)])).1,
   (save_load_roundtrip (fun _ => none) "t/state.json" (J.obj [("x", J.int 1)])).2.1
     (by decide),
   (save_load_roundtrip (fun _ => none) "t/state.json" (J.obj [("x", J.int 1)])).2.2
     rfl⟩

/-- C3: recording a triage action stores exactly the freshly built entry
under `str(number)` (a re-triage overwrites the prior entry in full), keeps
the triaged keys duplicate-free, and the entry carries `comment_posted`
only when true and `note` only when the note string is non-empty. -/
theorem mark_triaged_overwrites (fs : FS) (dir now : String) (number : J)
    (action : String) (cp : Bool) (s : String)
    (wf : wfStateB fs dir = true) :
    ∃ fs', mark_triaged fs dir now number action cp (.str s) =
        some (fs', entryJson action now cp (.str s)) ∧
      getKey (triagedOf fs' dir) (pyStr number) =
        some (entryJson action now cp (.str s)) ∧
      (((triagedOf fs dir).map Prod.fst).Nodup →
        ((triagedOf fs' dir).map Prod.fst).Nodup) ∧
      getKey (entryFields action now cp (.str s)) "comment_posted" =
        (if cp then some (.bool true) else none) ∧
      getKey (entryFields action now cp (.str s)) "note" =
        (if s ≠ "" then some (.str s) else none) := by
  refine ⟨_, mark_triaged_eq fs dir now number action cp (.str s) wf, ?_, ?_,
    entry_getKey_comment_posted action now cp (.str s),
    entry_getKey_note action now cp s⟩
  · rw [triagedOf_after_mark]
    exact getKey_setKey_self _ _ _
  · intro h
    rw [triagedOf_after_mark]
    exact nodup_keys_setKey _ _ _ h

/-- Witness for C3 on an initially empty store. -/
theorem mark_triaged_overwrites_witness :
    wfStateB (fun _ => none) "t" = true ∧
    ∃ fs', mark_triaged (fun _ => none) "t" "T" (.int 7) "skipped" false (.str "") =
        some (fs', entryJson "skipped" "T" false (.str "")) ∧
      getKey (triagedOf fs' "t") (pyStr (J.int 7)) =
        some (entryJson "skipped" "T" false (.str "")) ∧
      (((triagedOf (fun _ => none : FS) "t").map Prod.fst).Nodup →
        ((triagedOf fs' "t").map Prod.fst).Nodup) ∧
      getKey (entryFields "skipped" "T" false (.str "")) "comment_posted" =
        (if false then some (.bool true) else none) ∧
      getKey (entryFields "skipped" "T" false (.str "")) "note" =
        (if "" ≠ "" then some (.str "") else none) :=
  ⟨rfl, mark_triaged_overwrites (fun _ => none) "t" "T" (.int 7) "skipped" false ""
    rfl⟩

/-- C9: `mark_triaged` changes the loaded state document only at the
`triaged` mapping's key `str(number)`: every other top-level field and
every other triaged entry is unchanged. -/
theorem mark_triaged_frame (fs : FS) (dir now : String) (number : J)
    (action : String) (cp : Bool) (note : J)
    (wf : wfStateB fs dir = true) :
    ∃ fs', mark_triaged fs dir now number action cp note =
        some (fs', entryJson action now cp note) ∧
      (∀ k, k ≠ "triaged" →
        getKey (topFields fs' dir) k = getKey (topFields fs dir) k) ∧
      (∀ s, s ≠ pyStr number →
        getKey (triagedOf fs' dir) s = getKey (triagedOf fs dir) s) ∧
      getKey (triagedOf fs' dir) (pyStr number) =
        some (entryJson action now cp note) := by
  refine ⟨_, mark_triaged_eq fs dir now number action cp note wf, ?_, ?_, ?_⟩
  · intro k hk
    rw [topFields_after_mark]
    exact getKey_markedFields_ne fs dir now number action cp note k hk
  · intro s hs
    rw [triagedOf_after_mark]
    exact getKey_setKey_ne _ _ _ _ hs
  · rw [triagedOf_after_mark]
    exact getKey_setKey_self _ _ _

/-- Witness for C9 on a state that already has another entry and an extra
top-level field. -/
theorem mark_triaged_frame_witness :
    wfStateB
        (fun p => if p = "t/state.json"
          then some (.obj [("repo", .str "o/r"),
            ("triaged", .obj [("3", .str "old")])]) else none) "t" = true ∧
    ∃ fs', mark_triaged
        (fun p => if p = "t/state.json"
          then some (.obj [("repo", .str "o/r"),
            ("triaged", .obj [("3", .str "old")])]) else none)
        "t" "T" (.int 7) "closed" true (.str "") =
        some (fs', entryJson "closed" "T" true (.str "")) ∧
      getKey (topFields fs' "t") "repo" =
        getKey (topFields
          (fun p => if p = "t/state.json"
            then some (.obj [("repo", .str "o/r"),
              ("triaged", .obj [("3", .str "old")])]) else none) "t") "repo" ∧
      getKey (triagedOf fs' "t") "3" =
        getKey (triagedOf
          (fun p => if p = "t/state.json"
            then some (.obj [("repo", .str "o/r"),
              ("triaged", .obj [("3", .str "old")])]) else none) "t") "3" ∧
      getKey (triagedOf fs' "t") (pyStr (J.int 7)) =
        some (entryJson "closed" "T" true (.str "")) := by
  refine ⟨rfl, ?_⟩
  obtain ⟨fs', h1, h2, h3, h4⟩ := mark_triaged_frame
    (fun p => if p = "t/state.json"
      then some (.obj [("repo", .str "o/r"),
        ("triaged", .obj [("3", .str "old")])]) else none)
    "t" "T" (.int 7) "closed" true (.str "") rfl
  exact ⟨fs', h1, h2 "repo" (by decide), h3 "3" (by decide), h4⟩

/-- C10: a request body with `number` equal to the JSON boolean `true`
passes the positive-integer validation (Python `bool` is an `int`), and a
`skip` action records the TriageEntry under the string key "True" with a
200 response instead of a 400 rejection. -/
theorem bool_number_accepted :
    ∃ fs', handle_action (fun _ => ⟨true, ""⟩) "r" "p" "T" (fun _ => none) "t"
        (.obj [("number", .bool true), ("action", .str "skip")]) =
      some ⟨[], 200, okJson "skipped" (entryJson "skipped" "T" false (.str "")),
            fs', [(.bool true, "skipped", false, .str "")]⟩ ∧
      getKey (triagedOf fs' "t") "True" =
        some (entryJson "skipped" "T" false (.str "")) := by
  refine ⟨save_json (fun _ => none) "t/state.json"
    (.obj [("triaged", .obj [("True", entryJson "skipped" "T" false (.str ""))])]),
    ?_, ?_⟩ <;> rfl

/-- C8: a `skip` action with a valid number succeeds with no external call,
invokes the record operation exactly once with action `skipped` and the
request's comment as the note, and responds
`{ok: true, action: "skipped", entry}`. -/
theorem skip_records_note (o : Oracle) (repo tmppath now : String) (fs : FS)
    (dir : String) (fields : List (String × J)) (n : Int) (cJ : J)
    (hnum : getKey fields "number" = some (.int n)) (hn : 0 < n)
    (hact : getKey fields "action" = some (.str "skip"))
    (hc : getKey fields "comment" = some cJ)
    (wf : wfStateB fs dir = true) :
    ∃ fs', handle_action o repo tmppath now fs dir (.obj fields) =
      some ⟨[], 200, okJson "skipped" (entryJson "skipped" now false cJ), fs',
            [(.int n, "skipped", false, cJ)]⟩ := by
  rw [handle_action_skip_eq o repo tmppath now fs dir fields n cJ hnum hn hact hc]
  unfold do_skip
  rw [mark_triaged_eq _ _ _ _ _ _ _ wf]
  exact ⟨_, rfl⟩

/-- Witness for C8 at a concrete skip request. -/
theorem skip_records_note_witness :
    ∃ fs', handle_action (fun _ => ⟨true, ""⟩) "r" "p" "T" (fun _ => none) "t"
        (.obj [("number", .int 5), ("action", .str "skip"),
               ("comment", .str "later")]) =
      some ⟨[], 200, okJson "skipped" (entryJson "skipped" "T" false (.str "later")),
            fs', [(.int 5, "skipped", false, .str "later")]⟩ :=
  skip_records_note (fun _ => ⟨true, ""⟩) "r" "p" "T" (fun _ => none) "t"
    [("number", .int 5), ("action", .str "skip"), ("comment", .str "later")]
    5 (.str "later") rfl (by decide) rfl rfl rfl

/-- C5: a `comment` action with a blank comment is rejected with 400 and a
message containing "empty", with no external call and no TriageEntry; with
a non-blank comment exactly one comment-post call is made (with a
`--body-file` body reference) and, when it succeeds, the record operation
runs with action `commented` and `comment_posted=true` and the response is
`{ok: true, action: "commented", entry}`. -/
theorem comment_action_spec (o : Oracle) (repo tmppath now : String) (fs : FS)
    (dir : String) (fields : List (String × J)) (n : Int) (c : String)
    (hnum : getKey fields "number" = some (.int n)) (hn : 0 < n)
    (hact : getKey fields "action" = some (.str "comment"))
    (hc : getKey fields "comment" = some (.str c)) :
    (pyStrip c = "" →
      handle_action o repo tmppath now fs dir (.obj fields) =
        some ⟨[], 400, errorOnly "Comment cannot be empty", fs, []⟩ ∧
      ∃ a b, "Comment cannot be empty" = a ++ "empty" ++ b) ∧
    (pyStrip c ≠ "" → (o 0).ok = true → wfStateB fs dir = true →
      "--body-file" ∈ commentArgs (pyStr (J.int n)) repo tmppath ∧
      ∃ fs', handle_action o repo tmppath now fs dir (.obj fields) =
        some ⟨[commentArgs (pyStr (J.int n)) repo tmppath], 200,
              okJson "commented" (entryJson "commented" now true (.str "")), fs',
              [(.int n, "commented", true, .str "")]⟩) := by
  rw [handle_action_comment_eq o repo tmppath now fs dir fields n c hnum hn hact hc]
  constructor
  · intro hblank
    constructor
    · unfold do_comment
      rw [if_pos hblank]
    · exact ⟨"Comment cannot be ", "", rfl⟩
  · intro hftull hok wf
    constructor
    · simp [commentArgs]
    · unfold do_comment
      rw [if_neg hftull]
      simp only [run_gh, List.length_nil, List.nil_append, hok, if_true]
      rw [mark_triaged_eq _ _ _ _ _ _ _ wf]
      exact ⟨_, rfl⟩

/-- Witness for C5: the blank-comment rejection and a successful "Nice
work!" comment at concrete inputs. -/
theorem comment_action_spec_witness :
    (handle_action (fun _ => ⟨true, ""⟩) "r" "p" "T" (fun _ => none) "t"
        (.obj [("number", .int 5), ("action", .str "comment"),
               ("comment", .str "")]) =
      some ⟨[], 400, errorOnly "Comment cannot be empty", (fun _ => none), []⟩) ∧
    ("--body-file" ∈ commentArgs (pyStr (J.int 5)) "r" "p" ∧
      ∃ fs', handle_action (fun _ => ⟨true, ""⟩) "r" "p" "T" (fun _ => none) "t"
        (.obj [("number", .int 5), ("action", .str "comment"),
               ("comment", .str "Nice work!")]) =
        some ⟨[commentArgs (pyStr (J.int 5)) "r" "p"], 200,
              okJson "commented" (entryJson "commented" "T" true (.str "")), fs',
              [(.int 5, "commented", true, .str "")]⟩) :=
  ⟨((comment_action_spec (fun _ => ⟨true, ""⟩) "r" "p" "T" (fun _ => none) "t"
      [("number", .int 5), ("action", .str "comment"), ("comment", .str "")]
      5 "" rfl (by decide) rfl rfl).1 rfl).1,
   (comment_action_spec (fun _ => ⟨true, ""⟩) "r" "p" "T" (fun _ => none) "t"
      [("number", .int 5), ("action", .str "comment"),
       ("comment", .str "Nice work!")]
      5 "Nice work!" rfl (by decide) rfl rfl).2 (by decide) rfl rfl⟩

/-- C1: if any external call of a `close`/`close_wontfix` sequence fails
(the first failure being the `j`-th call), the handler stops right there:
the trace is exactly the first `j+1` planned calls, the response is
`{ok: false, error}` at 502, the store is unchanged, and no TriageEntry is
recorded. -/
theorem close_failure_short_circuits (o : Oracle) (repo tmppath now : String)
    (fs : FS) (dir : String) (fields : List (String × J)) (act : String)
    (n : Int) (c : String) (ls : List String) (j : Nat)
    (hnum : getKey fields "number" = some (.int n)) (hn : 0 < n)
    (hact : getKey fields "action" = some (.str act))
    (hc : getKey fields "comment" = some (.str c))
    (hl : getKey fields "labels" = some (.arr (ls.map J.str)))
    (ha : act = "close" ∨ act = "close_wontfix")
    (hj : j < (closePlan (pyStr (J.int n)) repo tmppath c (actionReason act)
            (actionLabels act ls)).length)
    (hok : ∀ i, i < j → (o i).ok = true)
    (hfail : (o j).ok = false) :
    ∃ msg, handle_action o repo tmppath now fs dir (.obj fields) =
      some ⟨((closePlan (pyStr (J.int n)) repo tmppath c (actionReason act)
              (actionLabels act ls)).take (j + 1)).map Prod.fst, 502,
            errJson msg, fs, []⟩ := by
  rw [handle_action_close_eq o repo tmppath now fs dir fields act n c ls
    hnum hn hact hc hl ha]
  rw [do_close_eq_plan]
  obtain ⟨step, hstep, hexec⟩ := gh_exec_first_fail o
    (closePlan (pyStr (J.int n)) repo tmppath c (actionReason act)
      (actionLabels act ls))
    [] j (by simp) (by simpa using hj) (fun i h1 h2 => hok i h2) hfail
  refine ⟨step.2 (o j).err, ?_⟩
  rw [hexec]
  simp

/-- Witness for C1: a failing first label-add call of a concrete
`close_wontfix` request. -/
theorem close_failure_short_circuits_witness :
    ∃ msg, handle_action (fun _ => ⟨false, "boom"⟩) "r" "p" "T" (fun _ => none)
        "t"
        (.obj [("number", .int 1), ("action", .str "close_wontfix"),
               ("comment", .str ""), ("labels", .arr [])]) =
      some ⟨((closePlan (pyStr (J.int 1)) "r" "p" "" (actionReason "close_wontfix")
              (actionLabels "close_wontfix" [])).take 1).map Prod.fst, 502,
            errJson msg, (fun _ => none), []⟩ :=
  close_failure_short_circuits (fun _ => ⟨false, "boom"⟩) "r" "p" "T"
    (fun _ => none) "t"
    [("number", .int 1), ("action", .str "close_wontfix"),
     ("comment", .str ""), ("labels", .arr [])]
    "close_wontfix" 1 "" [] 0 rfl (by decide) rfl rfl rfl (Or.inr rfl)
    (by decide) (fun i h => absurd h (Nat.not_lt_zero i)) rfl

/-- C2 counterexample: a `close` request that carries labels issues a
label-add call before the close, so the claimed sequence for `close`
(comment-post, if any, then close only) is wrong as stated. -/
theorem close_labels_counterexample :
    (handle_action (fun _ => ⟨true, ""⟩) "r" "p" "T" (fun _ => none) "t"
        (.obj [("number", .int 1), ("action", .str "close"),
               ("labels", .arr [.str "bug"])])).map ActionOut.calls =
      some [editArgs "1" "r" "bug", closeArgs "1" "r" "completed"] ∧
    (some [editArgs "1" "r" "bug", closeArgs "1" "r" "completed"] :
        Option (List Argv)) ≠
      some [closeArgs "1" "r" "completed"] :=
  ⟨rfl, by decide⟩

/-- C2 (amended): on a fully successful sequence the calls are, in order,
one label-add per label handed to `_do_close` — for `close_wontfix` the
forced `wontfix` label then the requested labels, for `close` the requested
labels — then the comment-post when the comment is non-blank, then the
close with the action's reason, and the record operation runs exactly
once. -/
theorem close_success_sequence (o : Oracle) (repo tmppath now : String)
    (fs : FS) (dir : String) (fields : List (String × J)) (act : String)
    (n : Int) (c : String) (ls : List String)
    (hnum : getKey fields "number" = some (.int n)) (hn : 0 < n)
    (hact : getKey fields "action" = some (.str act))
    (hc : getKey fields "comment" = some (.str c))
    (hl : getKey fields "labels" = some (.arr (ls.map J.str)))
    (ha : act = "close" ∨ act = "close_wontfix")
    (hok : ∀ i, (o i).ok = true) (wf : wfStateB fs dir = true) :
    ∃ fs', handle_action o repo tmppath now fs dir (.obj fields) =
      some ⟨(actionLabels act ls).map (editArgs (pyStr (J.int n)) repo)
              ++ (if pyStrip c ≠ ""
                  then [commentArgs (pyStr (J.int n)) repo tmppath] else [])
              ++ [closeArgs (pyStr (J.int n)) repo (actionReason act)],
            200,
            okJson "closed"
              (entryJson "closed" now (decide (pyStrip c ≠ "")) (.str "")),
            fs',
            [(.int n, "closed", decide (pyStrip c ≠ ""), .str "")]⟩ := by
  rw [handle_action_close_eq o repo tmppath now fs dir fields act n c ls
    hnum hn hact hc hl ha]
  rw [do_close_eq_plan]
  rw [gh_exec_all_ok o _ [] (fun i _ _ => hok i)]
  dsimp only
  rw [mark_triaged_eq _ _ _ _ _ _ _ wf]
  refine ⟨save_json fs (statePath dir)
    (J.obj (markedFields fs dir now (J.int n) "closed"
      (decide (pyStrip c ≠ "")) (J.str ""))), ?_⟩
  by_cases hcb : pyStrip c ≠ "" <;>
    simp [closePlan, labelStep, commentStep, closeStep, hcb,
      Function.comp]

/-- Witness for C2 (amended) at a concrete successful `close_wontfix`. -/
theorem close_success_sequence_witness :
    ∃ fs', handle_action (fun _ => ⟨true, ""⟩) "r" "p" "T" (fun _ => none) "t"
        (.obj [("number", .int 2), ("action", .str "close_wontfix"),
               ("comment", .str "done"), ("labels", .arr [.str "docs"])]) =
      some ⟨(actionLabels "close_wontfix" ["docs"]).map (editArgs (pyStr (J.int 2)) "r")
              ++ (if pyStrip "done" ≠ ""
                  then [commentArgs (pyStr (J.int 2)) "r" "p"] else [])
              ++ [closeArgs (pyStr (J.int 2)) "r" (actionReason "close_wontfix")],
            200,
            okJson "closed"
              (entryJson "closed" "T" (decide (pyStrip "done" ≠ "")) (.str "")),
            fs',
            [(.int 2, "closed", decide (pyStrip "done" ≠ ""), .str "")]⟩ :=
  close_success_sequence (fun _ => ⟨true, ""⟩) "r" "p" "T" (fun _ => none) "t"
    [("number", .int 2), ("action", .str "close_wontfix"),
     ("comment", .str "done"), ("labels", .arr [.str "docs"])]
    "close_wontfix" 2 "done" ["docs"] rfl (by decide) rfl rfl rfl (Or.inr rfl)
    (fun _ => rfl) rfl

/-! Helper lemmas for the dashboard filter and sort. -/

open List

theorem filterOpt_eq_filter (p : J → Option Bool) :
    ∀ (l out : List J), filterOpt p l = some out →
      out = l.filter (fun x => p x == some true) := by
  intro l
  induction l with
  | nil =>
      intro out h
      simp [filterOpt] at h
      subst h
      simp
  | cons i rest ih =>
      intro out h
      simp only [filterOpt] at h
      cases hp : p i with
      | none => rw [hp] at h; simp at h
      | some b =>
          rw [hp] at h
          cases b with
          | true =>
              simp only at h
              cases hr : filterOpt p rest with
              | none => rw [hr] at h; simp at h
              | some out' =>
                  rw [hr] at h
                  simp at h
                  rw [← h, List.filter_cons, ih out' hr]
                  simp [hp]
          | false =>
              simp only at h
              rw [List.filter_cons, ih out h]
              simp [hp]

/-- Comparison used by the decorated stable sort. -/
def keyLE {κ : Type} [LE κ] (key : J → Option κ) (x y : J) : Prop :=
  ∀ kx ky, key x = some kx → key y = some ky → kx ≤ ky

theorem decorate_eq {κ : Type} (key : J → Option κ) :
    ∀ (l : List J) (ps : List (κ × J)), decorate key l = some ps →
      ps.map Prod.snd = l ∧ ∀ p ∈ ps, key p.2 = some p.1 := by
  intro l
  induction l with
  | nil =>
      intro ps h
      simp [decorate] at h
      subst h
      simp
  | cons i rest ih =>
      intro ps h
      simp only [decorate] at h
      cases hk : key i with
      | none => rw [hk] at h; simp at h
      | some k =>
          rw [hk] at h
          cases hr : decorate key rest with
          | none => rw [hr] at h; simp at h
          | some ps' =>
              rw [hr] at h
              simp at h
              obtain ⟨hmap, hkeys⟩ := ih ps' hr
              subst h
              refine ⟨by simp [hmap], ?_⟩
              intro p hp
              rcases List.mem_cons.mp hp with hp | hp
              · subst hp; exact hk
              · exact hkeys p hp

theorem single_sublist_lift {κ : Type} :
    ∀ (ps : List (κ × J)) (y : J), [y] <+ ps.map Prod.snd →
      ∃ py, py.2 = y ∧ [py] <+ ps := by
  intro ps
  induction ps with
  | nil => intro y h; simp at h
  | cons p ps' ih =>
      intro y h
      rw [List.map_cons] at h
      cases h with
      | cons _ h' =>
          obtain ⟨py, hy, hsub⟩ := ih y h'
          exact ⟨py, hy, hsub.cons p⟩
      | cons₂ _ h' =>
          exact ⟨p, rfl, (List.nil_sublist ps').cons₂ p⟩

theorem pair_sublist_lift {κ : Type} :
    ∀ (ps : List (κ × J)) (x y : J), [x, y] <+ ps.map Prod.snd →
      ∃ px py, px.2 = x ∧ py.2 = y ∧ [px, py] <+ ps := by
  intro ps
  induction ps with
  | nil => intro x y h; simp at h
  | cons p ps' ih =>
      intro x y h
      rw [List.map_cons] at h
      cases h with
      | cons _ h' =>
          obtain ⟨px, py, hx, hy, hsub⟩ := ih x y h'
          exact ⟨px, py, hx, hy, hsub.cons p⟩
      | cons₂ _ h' =>
          obtain ⟨py, hy, hsub⟩ := single_sublist_lift ps' y h'
          exact ⟨p, py, rfl, hy, hsub.cons₂ p⟩

theorem sortByKey_spec {κ : Type} [LinearOrder κ] (key : J → Option κ)
    (issues out : List J) (h : sortByKey key issues = some out) :
    out.Perm issues ∧
    out.Pairwise (keyLE key) ∧
    (∀ x y kx ky, [x, y] <+ issues → key x = some kx → key y = some ky →
      kx ≤ ky → [x, y] <+ out) := by
  unfold sortByKey at h
  cases hd : decorate key issues with
  | none => rw [hd] at h; simp at h
  | some ps =>
      rw [hd] at h
      simp only [Option.map_some', Option.some.injEq] at h
      obtain ⟨hmap, hkeys⟩ := decorate_eq key issues ps hd
      haveI : IsTotal (κ × J) (fun a b => a.1 ≤ b.1) :=
        ⟨fun a b => le_total a.1 b.1⟩
      haveI : IsTrans (κ × J) (fun a b => a.1 ≤ b.1) :=
        ⟨fun _ _ _ hab hbc => le_trans hab hbc⟩
      subst h
      refine ⟨?_, ?_, ?_⟩
      · exact ((List.perm_insertionSort _ ps).map Prod.snd).trans (hmap ▸ List.Perm.refl _)
      · have hs := List.sorted_insertionSort (fun (a b : κ × J) => a.1 ≤ b.1) ps
        have hmem : ∀ p ∈ ps.insertionSort (fun a b => a.1 ≤ b.1),
            key p.2 = some p.1 := fun p hp =>
          hkeys p ((List.perm_insertionSort _ ps).mem_iff.mp hp)
        rw [List.pairwise_map]
        refine List.Pairwise.imp_of_mem ?_ hs
        intro a b ha hb hab kx ky hkx hky
        rw [hmem a ha] at hkx
        rw [hmem b hb] at hky
        rw [← Option.some.inj hkx, ← Option.some.inj hky]
        exact hab
      · intro x y kx ky hsub hkx hky hle
        rw [← hmap] at hsub
        obtain ⟨px, py, hx, hy, hps⟩ := pair_sublist_lift ps x y hsub
        have h1 : px.1 = kx := by
          have := hkeys px (hps.subset (by simp))
          rw [hx, hkx] at this
          exact (Option.some.inj this).symm
        have h2 : py.1 = ky := by
          have := hkeys py (hps.subset (by simp))
          rw [hy, hky] at this
          exact (Option.some.inj this).symm
        have hr : px.1 ≤ py.1 := by rw [h1, h2]; exact hle
        have hpair := @List.pair_sublist_insertionSort (κ × J)
          (fun a b => a.1 ≤ b.1) (fun _ _ => inferInstance) px py ps hr hps
        have := hpair.map Prod.snd
        rw [List.map_cons, List.map_cons, List.map_nil, hx, hy] at this
        exact this

/-- C6 counterexample: with an empty findings document, filtering by
`verdict=pending` (or `confidence=PENDING`) selects nothing, although the
claim says issues without a Finding default to pending/PENDING and would
be selected. -/
theorem pending_filter_counterexample :
    findings_by_num (J.obj [("issues", J.arr [])]) = some [] ∧
    filterVerdict [] "pending" [J.obj [("number", J.int 5)]] = some [] ∧
    filterConfidence [] "PENDING" [J.obj [("number", J.int 5)]] = some [] ∧
    (some [] : Option (List J)) ≠ some [J.obj [("number", J.int 5)]] := by
  refine ⟨rfl, rfl, rfl, ?_⟩
  intro h
  simp at h

/-- C6 (amended): the dashboard verdict/confidence filters compare the
Finding's field against the filter string with no defaulting: an issue
with no Finding (or whose Finding lacks the field) matches no filter
value — in particular `verdict=pending` and `confidence=PENDING` do not
select it; with a Finding the match is exact; a non-empty filter keeps
exactly the matching issues, in input order. -/
theorem filter_exact_no_default (fbn : List (J × J)) (vf : String) (i : J)
    (num : J) (issues out : List J)
    (hnum : issueNumber i = some num) :
    (lookupBy pyEq fbn num = none →
      verdictMatches fbn vf i = some false ∧
      confidenceMatches fbn vf i = some false) ∧
    (∀ ffields, lookupBy pyEq fbn num = some (.obj ffields) →
      verdictMatches fbn vf i = some (eqStrOpt (getKey ffields "verdict") vf) ∧
      confidenceMatches fbn vf i =
        some (eqStrOpt (getKey ffields "confidence") vf)) ∧
    (vf ≠ "" → filterVerdict fbn vf issues = some out →
      out = issues.filter (fun x => verdictMatches fbn vf x == some true)) ∧
    (vf ≠ "" → filterConfidence fbn vf issues = some out →
      out = issues.filter (fun x => confidenceMatches fbn vf x == some true)) := by
  refine ⟨?_, ?_, ?_, ?_⟩
  · intro hnone
    unfold verdictMatches confidenceMatches
    rw [hnum]
    dsimp only
    rw [hnone]
    simp [eqStrOpt, getKey]
  · intro ffields hsome
    unfold verdictMatches confidenceMatches
    rw [hnum]
    dsimp only
    rw [hsome]
    simp
  · intro hvf hf
    unfold filterVerdict at hf
    rw [if_neg hvf] at hf
    exact filterOpt_eq_filter _ issues out hf
  · intro hvf hf
    unfold filterConfidence at hf
    rw [if_neg hvf] at hf
    exact filterOpt_eq_filter _ issues out hf

/-- Witness for C6 (amended) at a finding-less issue and the pending
filter. -/
theorem filter_exact_no_default_witness :
    (verdictMatches [] "pending" (J.obj [("number", J.int 5)]) = some false ∧
      confidenceMatches [] "pending" (J.obj [("number", J.int 5)]) =
        some false) ∧
    ([] : List J) = ([J.obj [("number", J.int 5)]]).filter
      (fun x => verdictMatches [] "pending" x == some true) :=
  ⟨(filter_exact_no_default [] "pending" (J.obj [("number", J.int 5)])
      (J.int 5) [J.obj [("number", J.int 5)]] [] rfl).1 rfl,
   (filter_exact_no_default [] "pending" (J.obj [("number", J.int 5)])
      (J.int 5) [J.obj [("number", J.int 5)]] [] rfl).2.2.1 (by decide) rfl⟩

/-- C7 counterexample: two issues with equal `created_at`, passed with the
higher issue number first, keep their input order under the age sort, so
issue number ascending is not the tiebreak. -/
theorem age_sort_input_order_counterexample :
    sortByAge [J.obj [("number", J.int 2), ("created_at", J.str "2025")],
               J.obj [("number", J.int 1), ("created_at", J.str "2025")]] =
      some [J.obj [("number", J.int 2), ("created_at", J.str "2025")],
            J.obj [("number", J.int 1), ("created_at", J.str "2025")]] ∧
    ageKey (J.obj [("number", J.int 2), ("created_at", J.str "2025")]) =
      ageKey (J.obj [("number", J.int 1), ("created_at", J.str "2025")]) ∧
    numKey (J.obj [("number", J.int 2), ("created_at", J.str "2025")]) =
      some 2 ∧
    numKey (J.obj [("number", J.int 1), ("created_at", J.str "2025")]) =
      some 1 ∧
    (1 : Int) < 2 :=
  ⟨rfl, rfl, rfl, rfl, by decide⟩

/-- C7 (amended): the confidence sort orders by the explicit rank
HIGH < MEDIUM < LOW < PENDING with missing confidence ranked as PENDING,
the age sort orders by the created-timestamp string ascending, any sort
value other than "age"/"confidence" (in particular the "number" default)
sorts by issue number ascending, and each sort is a stable permutation:
ties keep the input list order (not issue-number order). -/
theorem dashboard_sort_spec (fbn : List (J × J)) (issues : List J) :
    (∀ out, sortByNumber issues = some out →
      out.Perm issues ∧ out.Pairwise (keyLE numKey) ∧
      ∀ x y kx ky, [x, y] <+ issues → numKey x = some kx →
        numKey y = some ky → kx ≤ ky → [x, y] <+ out) ∧
    (∀ out, sortByAge issues = some out →
      out.Perm issues ∧ out.Pairwise (keyLE ageKey) ∧
      ∀ x y kx ky, [x, y] <+ issues → ageKey x = some kx →
        ageKey y = some ky → kx ≤ ky → [x, y] <+ out) ∧
    (∀ out, sortByConf fbn issues = some out →
      out.Perm issues ∧ out.Pairwise (keyLE (confRank fbn)) ∧
      ∀ x y kx ky, [x, y] <+ issues → confRank fbn x = some kx →
        confRank fbn y = some ky → kx ≤ ky → [x, y] <+ out) ∧
    (∀ s, s ≠ "age" → s ≠ "confidence" →
      dashboardSort fbn s issues = sortByNumber issues) ∧
    (rankOf (.str "HIGH") < rankOf (.str "MEDIUM") ∧
     rankOf (.str "MEDIUM") < rankOf (.str "LOW") ∧
     rankOf (.str "LOW") < rankOf (.str "PENDING")) ∧
    (∀ i num, issueNumber i = some num → lookupBy pyEq fbn num = none →
      confRank fbn i = some (rankOf (.str "PENDING"))) := by
  refine ⟨fun out h => sortByKey_spec numKey issues out h,
          fun out h => sortByKey_spec ageKey issues out h,
          fun out h => sortByKey_spec (confRank fbn) issues out h,
          ?_, by decide, ?_⟩
  · intro s h1 h2
    unfold dashboardSort
    rw [if_neg h1, if_neg h2]
  · intro i num hnum hnone
    unfold confRank
    rw [hnum]
    dsimp only
    rw [hnone]
    rfl

/-- Witness for C7 (amended) at a concrete one-issue dashboard. -/
theorem dashboard_sort_spec_witness :
    ([J.obj [("number", J.int 1)]]).Perm [J.obj [("number", J.int 1)]] ∧
    dashboardSort [] "number" [J.obj [("number", J.int 1)]] =
      sortByNumber [J.obj [("number", J.int 1)]] ∧
    confRank [] (J.obj [("number", J.int 1)]) =
      some (rankOf (.str "PENDING")) :=
  ⟨((dashboard_sort_spec [] [J.obj [("number", J.int 1)]]).1
      [J.obj [("number", J.int 1)]] rfl).1,
   (dashboard_sort_spec [] [J.obj [("number", J.int 1)]]).2.2.2.1 "number"
      (by decide) (by decide),
   (dashboard_sort_spec [] [J.obj [("number", J.int 1)]]).2.2.2.2.2
      (J.obj [("number", J.int 1)]) (J.int 1) rfl rfl⟩

end IssueTriage
